import Mathlib

/-!
Verification of the utilisation-dashboard row projector.

The development shallowly embeds the two row-projection pipelines of the
repository (the inline filter-inside-map pipeline of `src/table-script.tsx`
and the refactored `isValidRow`/`extractPerson` pipeline) together with the
JavaScript primitives they rely on (`parseFloat`, `Number.prototype.toFixed`,
template-literal number rendering, `Array.prototype.find`, optional chaining
and nullish coalescing).  Missing fields are modelled as `Option`; JavaScript
numbers produced by `parseFloat` on decimal literals are modelled exactly as
sign/mantissa/decimal-exponent triples (NaN and the infinities are explicit
constructors).  The model renders plain decimal notation; the exponential
notation JavaScript switches to beyond 1e21 is outside the magnitudes the
program handles.
-/

namespace UtilTable

/-- `{month, costs}` entry of `costsByMonth.potentialEarningsByMonth`. -/
structure EarningsEntry where
  month : Option String
  costs : Option String
deriving DecidableEq, Repr

/-- The `costsByMonth` object of an employee record. -/
structure CostsByMonth where
  potentialEarningsByMonth : Option (List EarningsEntry)
deriving DecidableEq, Repr

/-- `{month, utilisationRate}` entry of `lastThreeMonthsIndividually`. -/
structure MonthRate where
  month : Option String
  utilisationRate : Option String
deriving DecidableEq, Repr

/-- The shared `workforceUtilisation` sub-structure. -/
structure WorkforceUtilisation where
  utilisationRateLastTwelveMonths : Option String
  utilisationRateYearToDate : Option String
  lastThreeMonthsIndividually : Option (List MonthRate)
deriving DecidableEq, Repr

/-- The `statusAggregation` object of an employee record. -/
structure StatusAggregation where
  status : Option String
deriving DecidableEq, Repr

/-- The `employees` variant of a source record. -/
structure Employees where
  firstname : Option String
  lastname : Option String
  statusAggregation : Option StatusAggregation
  workforceUtilisation : Option WorkforceUtilisation
  costsByMonth : Option CostsByMonth
deriving DecidableEq, Repr

/-- The `externals` variant of a source record. -/
structure Externals where
  firstname : Option String
  lastname : Option String
  status : Option String
  workforceUtilisation : Option WorkforceUtilisation
deriving DecidableEq, Repr

/-- One input record (`SourceDataType`): each variant optionally present. -/
structure SourceDataType where
  employees : Option Employees
  externals : Option Externals
deriving DecidableEq, Repr

/-- The fields of a resolved person that row construction reads
(common to both variants). -/
structure Person where
  firstname : Option String
  lastname : Option String
  workforceUtilisation : Option WorkforceUtilisation
deriving DecidableEq, Repr

/-- View an employee object as the resolved person. -/
def Employees.toPerson (e : Employees) : Person :=
  ⟨e.firstname, e.lastname, e.workforceUtilisation⟩

/-- View an external object as the resolved person. -/
def Externals.toPerson (x : Externals) : Person :=
  ⟨x.firstname, x.lastname, x.workforceUtilisation⟩

/-- One output display row (`TableDataType`): all fields are strings. -/
structure TableDataType where
  person : String
  past12Months : String
  y2d : String
  may : String
  june : String
  july : String
  netEarningsPrevMonth : String
deriving DecidableEq, Repr

/-- The current wall-clock date as the code reads it: `getFullYear()` and the
zero-based `getMonth()` (0 = January, ..., 11 = December). -/
structure CurrentDate where
  year : Int
  month0 : Nat
deriving DecidableEq, Repr

/-!  ## JavaScript number model

`parseFloat` on a decimal string literal yields NaN, an infinity, or a value
written `± mant · 10 ^ ex` with a natural mantissa and integer decimal
exponent; arithmetic and rendering below are exact on that representation.
-/

/-- A JavaScript number as produced by `parseFloat`:
NaN, a signed infinity, or a finite decimal `± mant · 10 ^ ex`. -/
inductive JSNum where
  | nan : JSNum
  | inf : Bool → JSNum
  | num : Bool → Nat → Int → JSNum
deriving DecidableEq, Repr

/-- The rational value of a finite `JSNum.num neg mant ex` (the sign flag on a
zero mantissa is JavaScript's negative zero, whose value is `0`). -/
def JSNum.toRat (neg : Bool) (mant : Nat) (ex : Int) : ℚ :=
  (if neg then -1 else 1) * (mant : ℚ) * (10 : ℚ) ^ ex

/-- The whitespace characters `parseFloat` skips before parsing. -/
def isJsSpace (c : Char) : Bool :=
  c == ' ' || c == '\t' || c == '\n' || c == '\r' || c == '\x0b' || c == '\x0c'

/-- Drop leading whitespace. -/
def skipSpaces : List Char → List Char
  | [] => []
  | c :: cs => if isJsSpace c then skipSpaces cs else c :: cs

/-- Is `c` a decimal digit? -/
def isDig (c : Char) : Bool := '0' ≤ c && c ≤ '9'

/-- Numeric value of a decimal digit character. -/
def digVal (c : Char) : Nat := c.toNat - '0'.toNat

/-- Split off the longest leading run of decimal digits. -/
def takeDigits : List Char → (List Nat × List Char)
  | [] => ([], [])
  | c :: cs =>
    if isDig c then
      let (ds, rest) := takeDigits cs
      (digVal c :: ds, rest)
    else ([], c :: cs)

/-- The natural number written by a digit list (most significant first). -/
def natOfDigits (ds : List Nat) : Nat := ds.foldl (fun a d => 10 * a + d) 0

/-- Does the character list start with the given pattern? -/
def startsWithChars : List Char → List Char → Bool
  | [], _ => true
  | _ :: _, [] => false
  | p :: ps, c :: cs => p == c && startsWithChars ps cs

/-- Parse an optional exponent part (`e`/`E`, optional sign, digits); an
incomplete exponent is not part of the longest valid literal and yields `0`,
matching `parseFloat("1e")` = 1. -/
def parseExpPart (cs : List Char) : Int :=
  match cs with
  | c :: cs1 =>
    if c == 'e' || c == 'E' then
      let (negE, cs2) : Bool × List Char :=
        match cs1 with
        | '-' :: r => (true, r)
        | '+' :: r => (false, r)
        | r => (false, r)
      let (ds, _) := takeDigits cs2
      if ds.isEmpty then 0
      else if negE then -(natOfDigits ds : Int) else (natOfDigits ds : Int)
    else 0
  | [] => 0

/-- JavaScript `parseFloat`: skip whitespace, optional sign, then the longest
prefix that is `Infinity` or a decimal literal
(`digits [. digits]` or `. digits`, optional exponent); no such prefix is NaN.
The result is exact in the decimal triple representation. -/
def parseFloatJS (s : String) : JSNum :=
  let cs := skipSpaces s.data
  let (neg, cs1) : Bool × List Char :=
    match cs with
    | '-' :: r => (true, r)
    | '+' :: r => (false, r)
    | r => (false, r)
  if startsWithChars ['I', 'n', 'f', 'i', 'n', 'i', 't', 'y'] cs1 then
    JSNum.inf neg
  else
    let (intDs, cs2) := takeDigits cs1
    let (fracDs, cs3) : List Nat × List Char :=
      match cs2 with
      | '.' :: r => takeDigits r
      | r => ([], r)
    if intDs.isEmpty && fracDs.isEmpty then JSNum.nan
    else
      let e := parseExpPart cs3
      JSNum.num neg (natOfDigits (intDs ++ fracDs)) (e - fracDs.length)

/-- Multiplication by 100 (`parseFloat(value) * 100`): exact on the decimal
triple, NaN and infinities absorb. -/
def jsMul100 : JSNum → JSNum
  | JSNum.nan => JSNum.nan
  | JSNum.inf b => JSNum.inf b
  | JSNum.num neg m e => JSNum.num neg m (e + 2)

/-- `toFixed(1)` of the nonnegative value `m · 10 ^ e`: round half up to one
decimal digit and print `intpart.digit`. -/
def toFixed1Pos (m : Nat) (e : Int) : String :=
  let e1 := e + 1
  let n : Nat :=
    if 0 ≤ e1 then m * 10 ^ e1.toNat
    else (2 * m + 10 ^ (-e1).toNat) / (2 * 10 ^ (-e1).toNat)
  toString (n / 10) ++ "." ++ toString (n % 10)

/-- JavaScript `Number.prototype.toFixed(1)`: NaN prints `"NaN"`, infinities
print `"Infinity"`/`"-Infinity"`; a finite value prints a sign when negative
(`neg` with a nonzero mantissa) and its magnitude rounded half up to one
decimal place. -/
def jsToFixed1 : JSNum → String
  | JSNum.nan => "NaN"
  | JSNum.inf b => if b then "-Infinity" else "Infinity"
  | JSNum.num neg m e =>
    if neg ∧ m ≠ 0 then "-" ++ toFixed1Pos m e else toFixed1Pos m e

/-- Left-pad a digit list with `'0'` to length `k`. -/
def padZeros (k : Nat) (l : List Char) : List Char :=
  List.replicate (k - l.length) '0' ++ l

/-- Drop trailing `'0'` characters. -/
def dropTrailingZeros (l : List Char) : List Char :=
  (l.reverse.dropWhile (fun c => c == '0')).reverse

/-- Template-literal rendering of a JSNum (JavaScript `String(x)` /
`` `${x}` ``): `"NaN"`, `"Infinity"`, `"-Infinity"`, or the exact decimal
expansion with no trailing fractional zeros; zero (also negative zero)
prints `"0"`. -/
def jsNumToString : JSNum → String
  | JSNum.nan => "NaN"
  | JSNum.inf b => if b then "-Infinity" else "Infinity"
  | JSNum.num neg m e =>
    if m = 0 then "0"
    else
      let mag : String :=
        if 0 ≤ e then toString (m * 10 ^ e.toNat)
        else
          let k := (-e).toNat
          let ip := m / 10 ^ k
          let fp := m % 10 ^ k
          if fp = 0 then toString ip
          else
            toString ip ++ "." ++
              String.mk (dropTrailingZeros (padZeros k (toString fp).data))
      if neg then "-" ++ mag else mag

/-- JavaScript truthiness of an optional string: `undefined` and `""` are
falsy, every other string is truthy. -/
def truthyStr (o : Option String) : Bool :=
  match o with
  | none => false
  | some s => !(s == "")

/-- Template-literal rendering of a possibly-undefined string:
`undefined` interpolates as `"undefined"`. -/
def showOptStr (o : Option String) : String :=
  match o with
  | none => "undefined"
  | some s => s

/-- `String.prototype.padStart(2, "0")`. -/
def padStart2 (s : String) : String :=
  if s.length ≥ 2 then s
  else String.mk (List.replicate (2 - s.length) '0') ++ s

/-!  ## Shared helpers of both source files

`getPrevMonthKey`, `getNetEarningsPrevMonth` and the inline `parseRate`
closure are textually identical in `table-script.tsx` and the refactored
file, so each is embedded once.  The wall-clock `new Date()` is made an
explicit `CurrentDate` parameter.
-/

/-- `getPrevMonthKey`: `new Date(year, month0 - 1, 1)` normalises month `-1`
to December of the previous year; the key is
`` `${prev.getFullYear()}-${String(prev.getMonth() + 1).padStart(2, "0")}` ``. -/
def getPrevMonthKey (d : CurrentDate) : String :=
  let py : Int := if d.month0 = 0 then d.year - 1 else d.year
  let pm : Nat := if d.month0 = 0 then 12 else d.month0
  toString py ++ "-" ++ padStart2 (toString pm)

/-- The `earningsArr` of `getNetEarningsPrevMonth`:
`dataRow.employees?.costsByMonth?.potentialEarningsByMonth ?? []`. -/
def earningsList (r : SourceDataType) : List EarningsEntry :=
  ((r.employees.bind (fun e => e.costsByMonth)).bind
    (fun c => c.potentialEarningsByMonth)).getD []

/-- `getNetEarningsPrevMonth`: find the entry of `earningsArr` whose `month`
equals the previous-month key, `parseFloat(match?.costs ?? "0")`, and render
`` `${raw} €` ``. -/
def getNetEarningsPrevMonth (d : CurrentDate) (r : SourceDataType) : String :=
  let prevMonthKey := getPrevMonthKey d
  let m := (earningsList r).find? (fun e => e.month == some prevMonthKey)
  let raw := parseFloatJS ((m.bind (fun e => e.costs)).getD "0")
  jsNumToString raw ++ " €"

/-- The inline `parseRate` closure:
`value ? ((parseFloat(value) * 100).toFixed(1) + "%") : "0%"`. -/
def parseRate (value : Option String) : String :=
  match value with
  | none => "0%"
  | some s => if s = "" then "0%" else jsToFixed1 (jsMul100 (parseFloatJS s)) ++ "%"

/-!  ## The inline pipeline of `table-script.tsx` -/

/-- The row object built for a retained record in `table-script.tsx`, given
the resolved person (`isEmployee ? dataRow.employees! : dataRow.externals!`):
`lastThreeMonths` is `util?.lastThreeMonthsIndividually ?? []` and each month
column finds its entry in it by literal month name. -/
def buildRowTsx (d : CurrentDate) (p : Person) (r : SourceDataType) : TableDataType :=
  let util := p.workforceUtilisation
  let lastThreeMonths := (util.bind (fun u => u.lastThreeMonthsIndividually)).getD []
  { person := showOptStr p.firstname ++ " " ++ showOptStr p.lastname
    past12Months := parseRate (util.bind (fun u => u.utilisationRateLastTwelveMonths))
    y2d := parseRate (util.bind (fun u => u.utilisationRateYearToDate))
    may := parseRate ((lastThreeMonths.find? (fun m => m.month == some "May")).bind
      (fun m => m.utilisationRate))
    june := parseRate ((lastThreeMonths.find? (fun m => m.month == some "June")).bind
      (fun m => m.utilisationRate))
    july := parseRate ((lastThreeMonths.find? (fun m => m.month == some "July")).bind
      (fun m => m.utilisationRate))
    netEarningsPrevMonth := getNetEarningsPrevMonth d r }

/-- The body of the `.map` callback in `table-script.tsx`: employee records
are dropped when `statusAggregation?.status === "Inaktiv"`, otherwise-external
records when `status !== "active"`, variantless records always; retained
records are projected from the resolved person. -/
def mapRowTsx (d : CurrentDate) (r : SourceDataType) : Option TableDataType :=
  match r.employees with
  | some e =>
    if (e.statusAggregation.bind (fun a => a.status)) == some "Inaktiv" then none
    else some (buildRowTsx d e.toPerson r)
  | none =>
    match r.externals with
    | some x =>
      if !(x.status == some "active") then none
      else some (buildRowTsx d x.toPerson r)
    | none => none

/-- `tableData` of `table-script.tsx`:
`.map(dataRow => row-or-null).filter(row => row !== null)`. -/
def tableDataTsx (d : CurrentDate) (rs : List SourceDataType) : List TableDataType :=
  rs.filterMap (mapRowTsx d)

/-!  ## The refactored pipeline (`isValidRow` / `extractPerson`) -/

/-- `isInactiveEmployee`:
`!!dataRow.employees && dataRow.employees.statusAggregation?.status === "Inaktiv"`. -/
def isInactiveEmployee (r : SourceDataType) : Bool :=
  r.employees.isSome &&
    ((r.employees.bind (fun e => e.statusAggregation)).bind (fun a => a.status)
      == some "Inaktiv")

/-- `isInactiveExternal`:
`!!dataRow.externals && dataRow.externals.status !== "active"`. -/
def isInactiveExternal (r : SourceDataType) : Bool :=
  r.externals.isSome && !((r.externals.bind (fun x => x.status)) == some "active")

/-- `extractPerson`: `dataRow.employees ?? dataRow.externals`. -/
def extractPerson (r : SourceDataType) : Option Person :=
  match r.employees with
  | some e => some e.toPerson
  | none => r.externals.map Externals.toPerson

/-- `hasValidName`: `Boolean(person?.firstname && person?.lastname)` —
both names defined and non-empty. -/
def hasValidName (p : Option Person) : Bool :=
  truthyStr (p.bind (fun q => q.firstname)) && truthyStr (p.bind (fun q => q.lastname))

/-- `isValidRow`: not an inactive employee, not an inactive external, and the
resolved person has a valid name. -/
def isValidRow (r : SourceDataType) : Bool :=
  !(isInactiveEmployee r) && !(isInactiveExternal r) && hasValidName (extractPerson r)

/-- The row object built in the refactored `.map` callback: `getMonthRate`
chains `util?.lastThreeMonthsIndividually?.find(...)?.utilisationRate`
through optional chaining with no `?? []`. -/
def buildRowRef (d : CurrentDate) (p : Person) (r : SourceDataType) : TableDataType :=
  let util := p.workforceUtilisation
  let getMonthRate : String → String := fun month =>
    parseRate (((util.bind (fun u => u.lastThreeMonthsIndividually)).bind
      (fun l => l.find? (fun m => m.month == some month))).bind
        (fun m => m.utilisationRate))
  { person := showOptStr p.firstname ++ " " ++ showOptStr p.lastname
    past12Months := parseRate (util.bind (fun u => u.utilisationRateLastTwelveMonths))
    y2d := parseRate (util.bind (fun u => u.utilisationRateYearToDate))
    may := getMonthRate "May"
    june := getMonthRate "June"
    july := getMonthRate "July"
    netEarningsPrevMonth := getNetEarningsPrevMonth d r }

/-- The refactored `.map` callback: `if (!person) return null`, else the row. -/
def mapRowRef (d : CurrentDate) (r : SourceDataType) : Option TableDataType :=
  match extractPerson r with
  | none => none
  | some p => some (buildRowRef d p r)

/-- `tableData` of the refactored file:
`.filter(isValidRow).map(row-or-null).filter(row => row !== null)`. -/
def tableDataRef (d : CurrentDate) (rs : List SourceDataType) : List TableDataType :=
  (rs.filter isValidRow).filterMap (mapRowRef d)

/-- The retention predicate actually applied by the inline pipeline of
`table-script.tsx` (read off its early `return null` branches): an employee
record is kept unless its status is `"Inaktiv"`; an otherwise-external record
is kept exactly when its status is `"active"`; a variantless record is
dropped.  No name condition appears. -/
def keepTsx (r : SourceDataType) : Bool :=
  match r.employees with
  | some e => !((e.statusAggregation.bind (fun a => a.status)) == some "Inaktiv")
  | none =>
    match r.externals with
    | some x => x.status == some "active"
    | none => false

/-- The per-record projection shared by both pipelines on retained records:
the row built from the resolved person (`employees ?? externals`).  The
variantless fallback never occurs for a retained record. -/
def rowOf (d : CurrentDate) (r : SourceDataType) : TableDataType :=
  match extractPerson r with
  | some p => buildRowTsx d p r
  | none => buildRowTsx d ⟨none, none, none⟩ r

/-!  ## Spec-side definitions

These two definitions follow the specification's words, to be compared with
the definitions embedded from the source.
-/

/-- Spec-side activity-and-name predicate, following the claim's words: a
variant is present; an employee variant's `statusAggregation.status` is not
`"Inaktiv"`; an external variant's `status` equals `"active"`; and the
resolved person has a non-empty firstname and a non-empty lastname. -/
def specActiveNamePred (r : SourceDataType) : Bool :=
  (r.employees.isSome || r.externals.isSome)
  && (match r.employees with
      | some e => !((e.statusAggregation.bind (fun a => a.status)) == some "Inaktiv")
      | none => true)
  && (match r.externals with
      | some x => x.status == some "active"
      | none => true)
  && (match extractPerson r with
      | some p => !(p.firstname.getD "" == "") && !(p.lastname.getD "" == "")
      | none => false)

/-- Spec-side previous-month key, following the claim's words: the
`"YYYY-MM"` string (month one-based, zero-padded to two digits) of the
calendar month immediately preceding the current month, wrapping to December
of the prior year when the current month is January. -/
def specPrevMonthKey (d : CurrentDate) : String :=
  let y : Int := if d.month0 = 0 then d.year - 1 else d.year
  let m : Nat := if d.month0 = 0 then 12 else d.month0
  toString y ++ "-" ++ (if m < 10 then "0" ++ toString m else toString m)

/-!  ## Exception-aware evaluation of the inline pipeline

`table-script.tsx` reads `person.workforceUtilisation` through a plain (not
optional-chained) property access on
`person = isEmployee ? dataRow.employees! : dataRow.externals!`; the `!`
assertions are compile-time only, so at runtime this access would raise a
`TypeError` were `person` `undefined`.  The `Except`-valued evaluator makes
that potential throw explicit so that the absence of exceptions is a theorem
rather than an artefact of the embedding.
-/

/-- Plain property access on a possibly-undefined object:
`TypeError` when the object is `undefined`. -/
def getFieldE {α : Type} (o : Option α) : Except String α :=
  match o with
  | none => Except.error "TypeError"
  | some a => Except.ok a

/-- `isEmployee ? dataRow.employees! : dataRow.externals!` as the
possibly-undefined resolved person. -/
def tsxPersonOpt (r : SourceDataType) : Option Person :=
  if r.employees.isSome then r.employees.map Employees.toPerson
  else r.externals.map Externals.toPerson

/-- The `.map` callback of `table-script.tsx` with the plain dereference of
`person` modelled as a fallible access. -/
def mapRowE (d : CurrentDate) (r : SourceDataType) : Except String (Option TableDataType) :=
  match r.employees with
  | some e =>
    if (e.statusAggregation.bind (fun a => a.status)) == some "Inaktiv" then
      Except.ok none
    else do
      let p ← getFieldE (tsxPersonOpt r)
      Except.ok (some (buildRowTsx d p r))
  | none =>
    match r.externals with
    | some _ =>
      if !((r.externals.bind (fun x => x.status)) == some "active") then
        Except.ok none
      else do
        let p ← getFieldE (tsxPersonOpt r)
        Except.ok (some (buildRowTsx d p r))
    | none => Except.ok none

/-- The whole inline pipeline under exception-aware evaluation: a thrown
`TypeError` in any callback aborts the `.map`. -/
def tableDataE (d : CurrentDate) (rs : List SourceDataType) :
    Except String (List TableDataType) :=
  (rs.mapM (mapRowE d)).map (fun l => l.filterMap id)

/-!  ## Concrete sample inputs -/

/-- A sample current date: October 2025 (`getMonth() = 9`), whose
previous-month key is `"2025-09"`. -/
def sampleDate : CurrentDate := ⟨2025, 9⟩

/-- An active employee object with valid names, utilisation data and a
previous-month earnings entry of `"3500"` (the spec's §8 scenario person). -/
def empJane : Employees :=
  { firstname := some "Jane", lastname := some "Doe"
    statusAggregation := some { status := some "Aktiv" }
    workforceUtilisation := some
      { utilisationRateLastTwelveMonths := some "0.89"
        utilisationRateYearToDate := some "0.75"
        lastThreeMonthsIndividually := some
          [{ month := some "June", utilisationRate := some "0.72" }] }
    costsByMonth := some
      { potentialEarningsByMonth := some
          [{ month := some "2025-09", costs := some "3500" }] } }

/-- The record carrying `empJane` (the spec's §8 scenario record). -/
def recEmployeeGood : SourceDataType :=
  { employees := some empJane, externals := none }

/-- An active employee record whose firstname is the empty string. -/
def recEmptyFirstname : SourceDataType :=
  { employees := some
      { firstname := some "", lastname := some "Doe"
        statusAggregation := some { status := some "Aktiv" }
        workforceUtilisation := none
        costsByMonth := none }
    externals := none }

/-- An active external record with valid names. -/
def recExternalActive : SourceDataType :=
  { employees := none
    externals := some
      { firstname := some "Ann", lastname := some "Ext"
        status := some "active"
        workforceUtilisation := none } }

/-- An active employee record whose previous-month earnings entry carries the
unparseable costs string `"abc"`. -/
def recUnparseableCosts : SourceDataType :=
  { employees := some
      { firstname := some "Jo", lastname := some "Nash"
        statusAggregation := some { status := some "Aktiv" }
        workforceUtilisation := none
        costsByMonth := some
          { potentialEarningsByMonth := some
              [{ month := some "2025-09", costs := some "abc" }] } }
    externals := none }

/-!  ## Helper lemmas -/

/-- JavaScript truthiness of an optional string, in `getD` form. -/
theorem truthyStr_eq_getD (o : Option String) : truthyStr o = !(o.getD "" == "") := by
  cases o <;> rfl

/-- `(o ?? []).find(q)` agrees with the optional chain `o?.find(q)`. -/
theorem find?_getD_empty {α : Type} (o : Option (List α)) (q : α → Bool) :
    (o.getD []).find? q = o.bind (fun l => l.find? q) := by
  cases o <;> rfl

/-- The two row builders produce identical rows: they differ only in routing
the month lookup through `?? []` versus pure optional chaining. -/
theorem buildRowRef_eq_buildRowTsx (d : CurrentDate) (p : Person) (r : SourceDataType) :
    buildRowRef d p r = buildRowTsx d p r := by
  simp only [buildRowRef, buildRowTsx, find?_getD_empty]

/-- The inline `.map` callback in guard-then-project form. -/
theorem mapRowTsx_eq (d : CurrentDate) (r : SourceDataType) :
    mapRowTsx d r = if keepTsx r then some (rowOf d r) else none := by
  rcases r with ⟨emp, ext⟩
  cases emp with
  | some e =>
    simp only [mapRowTsx, keepTsx, rowOf, extractPerson]
    by_cases h : (e.statusAggregation.bind (fun a => a.status)) == some "Inaktiv" <;>
      simp [h]
  | none =>
    cases ext with
    | some x =>
      simp only [mapRowTsx, keepTsx, rowOf, extractPerson, Option.map_some']
      by_cases h : x.status == some "active" <;> simp [h]
    | none => rfl

/-- A `filterMap` whose function is a guarded projection is the projection
mapped over the guard's filter. -/
theorem filterMap_eq_map_filter {α β : Type} (f : α → Option β) (p : α → Bool) (g : α → β)
    (h : ∀ r, f r = if p r then some (g r) else none) (rs : List α) :
    rs.filterMap f = (rs.filter p).map g := by
  induction rs with
  | nil => rfl
  | cons a l ih =>
    rw [List.filterMap_cons, h a, List.filter_cons]
    by_cases hp : p a <;> simp [hp, ih]

/-- `tableData` of `table-script.tsx` as filter-then-map. -/
theorem tableDataTsx_eq (d : CurrentDate) (rs : List SourceDataType) :
    tableDataTsx d rs = (rs.filter keepTsx).map (rowOf d) :=
  filterMap_eq_map_filter _ _ _ (mapRowTsx_eq d) rs

/-- A record passing `isValidRow` has a resolvable person. -/
theorem extractPerson_isSome_of_isValidRow {r : SourceDataType}
    (h : isValidRow r = true) : ∃ p, extractPerson r = some p := by
  cases hep : extractPerson r with
  | some p => exact ⟨p, rfl⟩
  | none =>
    exfalso
    rw [isValidRow, hasValidName, hep] at h
    simp [truthyStr] at h

/-- On records passing `isValidRow`, the refactored `.map` callback never
returns null and builds the shared row. -/
theorem mapRowRef_eq_of_valid {r : SourceDataType} (d : CurrentDate)
    (h : isValidRow r = true) : mapRowRef d r = some (rowOf d r) := by
  obtain ⟨p, hp⟩ := extractPerson_isSome_of_isValidRow h
  rw [mapRowRef, rowOf, hp]
  exact congrArg some (buildRowRef_eq_buildRowTsx d p r)

/-- `tableData` of the refactored file as filter-then-map. -/
theorem tableDataRef_eq (d : CurrentDate) (rs : List SourceDataType) :
    tableDataRef d rs = (rs.filter isValidRow).map (rowOf d) := by
  rw [tableDataRef]
  have key : ∀ l : List SourceDataType, (∀ r ∈ l, isValidRow r = true) →
      l.filterMap (mapRowRef d) = l.map (rowOf d) := by
    intro l
    induction l with
    | nil => intro _; rfl
    | cons a t ih =>
      intro hmem
      rw [List.filterMap_cons, mapRowRef_eq_of_valid d (hmem a (List.mem_cons_self a t)),
        List.map_cons, ih (fun r hr => hmem r (List.mem_cons_of_mem a hr))]
  exact key _ (fun r hr => (List.mem_filter.mp hr).2)

/-- `isValidRow` is stronger than the inline pipeline's retention test. -/
theorem keepTsx_of_isValidRow {r : SourceDataType} (h : isValidRow r = true) :
    keepTsx r = true := by
  rcases r with ⟨emp, ext⟩
  cases emp with
  | some e =>
    rw [keepTsx]
    by_cases hc : (e.statusAggregation.bind fun a => a.status) == some "Inaktiv"
    · exfalso
      rw [isValidRow, isInactiveEmployee] at h
      simp [hc] at h
    · simp [hc]
  | none =>
    cases ext with
    | some x =>
      rw [keepTsx]
      by_cases hc : x.status == some "active"
      · exact hc
      · exfalso
        rw [isValidRow, isInactiveExternal] at h
        simp [hc] at h
    | none =>
      rw [isValidRow, hasValidName, extractPerson] at h
      simp [truthyStr] at h

/-- The spec-side activity-and-name predicate coincides with the refactored
`isValidRow`. -/
theorem specActiveNamePred_eq_isValidRow (r : SourceDataType) :
    specActiveNamePred r = isValidRow r := by
  rcases r with ⟨emp, ext⟩
  cases emp <;> cases ext <;>
    simp [specActiveNamePred, isValidRow, isInactiveEmployee, isInactiveExternal,
      hasValidName, extractPerson, truthyStr_eq_getD, Employees.toPerson,
      Externals.toPerson]

/-- Exception-aware evaluation of the inline `.map` callback never throws:
whenever the plain dereference of `person` is reached, the guard has ensured
a variant is present. -/
theorem mapRowE_eq (d : CurrentDate) (r : SourceDataType) :
    mapRowE d r = Except.ok (mapRowTsx d r) := by
  rcases r with ⟨emp, ext⟩
  cases emp with
  | some e =>
    rw [mapRowE, mapRowTsx]
    by_cases hc : (e.statusAggregation.bind fun a => a.status) == some "Inaktiv" <;>
      simp only [hc, if_pos, if_neg, Bool.false_eq_true, not_false_eq_true,
        tsxPersonOpt, Option.isSome_some, if_true, Option.map_some', getFieldE] <;>
      rfl
  | none =>
    cases ext with
    | some x =>
      rw [mapRowE, mapRowTsx]
      by_cases hc : x.status == some "active" <;>
        simp only [hc, Option.some_bind, Bool.not_true, Bool.not_false,
          Bool.false_eq_true, not_false_eq_true, if_pos, if_neg, if_true,
          tsxPersonOpt, Option.isSome_none, Option.isSome_some, if_false,
          Option.map_some', getFieldE] <;>
        rfl
    | none => rfl

/-- Exception-aware evaluation of the whole `.map` succeeds and agrees with
the pure embedding, element by element. -/
theorem mapM_mapRowE_ok (d : CurrentDate) (rs : List SourceDataType) :
    rs.mapM (mapRowE d) = Except.ok (rs.map (mapRowTsx d)) := by
  induction rs with
  | nil => rfl
  | cons a t ih => rw [List.mapM_cons, mapRowE_eq, ih]; rfl

/-- `toFixed(1)` on the nonnegative value `m · 10 ^ e` prints
`intpart.digit` where the combined digit string is the half-up rounding of
ten times the value. -/
theorem toFixed1Pos_round (m : Nat) (e : Int) :
    ∃ n : Nat, (n : ℤ) = ⌊(m : ℚ) * (10 : ℚ) ^ (e + 1) + 1 / 2⌋ ∧
      toFixed1Pos m e = toString (n / 10) ++ "." ++ toString (n % 10) := by
  rw [toFixed1Pos]
  by_cases he : 0 ≤ e + 1
  · refine ⟨m * 10 ^ (e + 1).toNat, ?_, by rw [if_pos he]⟩
    have hcast : ((m * 10 ^ (e + 1).toNat : ℕ) : ℚ) = (m : ℚ) * (10 : ℚ) ^ (e + 1) := by
      push_cast
      rw [← zpow_natCast (10 : ℚ) (e + 1).toNat, Int.toNat_of_nonneg he]
    rw [← hcast, eq_comm, Int.floor_eq_iff]
    push_cast
    constructor <;> linarith
  · set k := (-(e + 1)).toNat with hk
    refine ⟨(2 * m + 10 ^ k) / (2 * 10 ^ k), ?_, by rw [if_neg he]⟩
    have hek : e + 1 = -(k : ℤ) := by
      rw [hk, Int.toNat_of_nonneg (by omega)]
      omega
    have hpow : (10 : ℚ) ^ (e + 1) = ((10 ^ k : ℕ) : ℚ)⁻¹ := by
      rw [hek, zpow_neg, zpow_natCast]
      push_cast
      rfl
    have hval : (m : ℚ) * (10 : ℚ) ^ (e + 1) + 1 / 2
        = ((2 * m + 10 ^ k : ℕ) : ℚ) / ((2 * 10 ^ k : ℕ) : ℚ) := by
      have h10 : ((10 ^ k : ℕ) : ℚ) ≠ 0 := by positivity
      rw [hpow]
      push_cast
      field_simp
      ring
    rw [hval, Rat.floor_natCast_div_natCast]
    exact Int.natCast_div _ _

/-- `toFixed(1)` on any finite JavaScript number: an optional leading sign
(present exactly when the value is negative) followed by the half-up rounding
of ten times the magnitude, split as `intpart.digit`. -/
theorem jsToFixed1_num (neg : Bool) (m : Nat) (e : Int) :
    ∃ n : Nat, (n : ℤ) = ⌊(m : ℚ) * (10 : ℚ) ^ (e + 1) + 1 / 2⌋ ∧
      jsToFixed1 (JSNum.num neg m e) =
        (if neg = true ∧ m ≠ 0 then "-" else "")
          ++ toString (n / 10) ++ "." ++ toString (n % 10) := by
  obtain ⟨n, hn, hs⟩ := toFixed1Pos_round m e
  refine ⟨n, hn, ?_⟩
  rw [jsToFixed1]
  by_cases hneg : neg = true ∧ m ≠ 0
  · rw [if_pos hneg, if_pos hneg, hs]
    simp [String.append_assoc]
  · rw [if_neg hneg, if_neg hneg, hs]
    simp

/-!  ## Claims -/

/-- C1 counterexample: the inline pipeline of `table-script.tsx` emits a row
for an active employee whose firstname is the empty string, although that
record fails the activity-and-name predicate, so the output row count (1)
differs from the predicate's count (0). -/
theorem c1_counterexample_tsx_ignores_names :
    specActiveNamePred recEmptyFirstname = false
    ∧ (tableDataTsx sampleDate [recEmptyFirstname]).length = 1
    ∧ ([recEmptyFirstname].countP specActiveNamePred) = 0 := by
  decide

/-- C1 (amended): the refactored pipeline emits a row for a record exactly
when it passes the activity-and-name predicate, and its row count equals the
predicate's count; the inline pipeline of `table-script.tsx` instead applies
only the activity conditions (`keepTsx`, with no name check and with a
two-variant record judged only as an employee), its row count equalling that
weaker predicate's count.  Both counts are at most the input count. -/
theorem c1_row_emission_counts (d : CurrentDate) (rs : List SourceDataType) :
    tableDataRef d rs = (rs.filter specActiveNamePred).map (rowOf d)
    ∧ (tableDataRef d rs).length = rs.countP specActiveNamePred
    ∧ (tableDataRef d rs).length ≤ rs.length
    ∧ (tableDataTsx d rs).length = rs.countP keepTsx
    ∧ (tableDataTsx d rs).length ≤ rs.length := by
  have hfilter : rs.filter specActiveNamePred = rs.filter isValidRow :=
    List.filter_congr (fun r _ => specActiveNamePred_eq_isValidRow r)
  refine ⟨?_, ?_, ?_, ?_, ?_⟩
  · rw [tableDataRef_eq, hfilter]
  · rw [tableDataRef_eq, List.length_map, List.countP_eq_length_filter, hfilter]
  · rw [tableDataRef_eq, List.length_map]
    exact List.length_filter_le _ _
  · rw [tableDataTsx_eq, List.length_map, List.countP_eq_length_filter]
  · rw [tableDataTsx_eq, List.length_map]
    exact List.length_filter_le _ _

/-- C2 counterexample: on an active employee with an empty firstname the two
pipelines produce different row sequences (the inline one emits the row, the
refactored one drops it). -/
theorem c2_counterexample_pipelines_differ :
    tableDataTsx sampleDate [recEmptyFirstname]
      ≠ tableDataRef sampleDate [recEmptyFirstname] := by
  decide

/-- C2 (amended): the refactored pipeline's output is always an
order-preserving subsequence of the inline pipeline's, and the two outputs
are equal whenever every record retained by the inline activity check also
passes the refactored pipeline's additional validity conditions (name
non-emptiness, and external status when both variants are present). -/
theorem c2_pipelines_agree_under_validity (d : CurrentDate) (rs : List SourceDataType) :
    List.Sublist (tableDataRef d rs) (tableDataTsx d rs)
    ∧ ((∀ r ∈ rs, keepTsx r = true → isValidRow r = true) →
        tableDataTsx d rs = tableDataRef d rs) := by
  constructor
  · rw [tableDataRef_eq, tableDataTsx_eq]
    exact (List.monotone_filter_right rs (fun r h => keepTsx_of_isValidRow h)).map _
  · intro h
    rw [tableDataRef_eq, tableDataTsx_eq]
    congr 1
    apply List.filter_congr
    intro r hr
    by_cases hk : keepTsx r = true
    · rw [hk, h r hr hk]
    · have hk' : keepTsx r = false := by
        rcases hb : keepTsx r
        · rfl
        · exact absurd hb hk
      rw [hk']
      rcases hv : isValidRow r
      · rfl
      · exact absurd (keepTsx_of_isValidRow hv) (hk' ▸ fun hc => Bool.false_ne_true hc)

/-- C2 witness: on a well-formed active employee record the hypothesis holds
and the two pipelines agree. -/
theorem c2_agreement_witness :
    tableDataTsx sampleDate [recEmployeeGood] = tableDataRef sampleDate [recEmployeeGood] :=
  (c2_pipelines_agree_under_validity sampleDate [recEmployeeGood]).2 (by decide)

/-- C6: both pipelines emit rows in input order: each output is an
order-preserving subsequence of the per-record projections of the input, and
each is exactly the projection mapped over its retention filter (no
re-sorting). -/
theorem c6_order_preserved (d : CurrentDate) (rs : List SourceDataType) :
    List.Sublist (tableDataTsx d rs) (rs.map (rowOf d))
    ∧ List.Sublist (tableDataRef d rs) (rs.map (rowOf d))
    ∧ tableDataTsx d rs = (rs.filter keepTsx).map (rowOf d)
    ∧ tableDataRef d rs = (rs.filter isValidRow).map (rowOf d) := by
  refine ⟨?_, ?_, tableDataTsx_eq d rs, tableDataRef_eq d rs⟩
  · rw [tableDataTsx_eq]
    exact (rs.filter_sublist).map _
  · rw [tableDataRef_eq]
    exact (rs.filter_sublist).map _

/-- C7: the projection is total and never throws: under exception-aware
evaluation (where the plain dereference of the resolved person would raise a
`TypeError` on an undefined person) the inline pipeline always returns `ok`
with exactly the pure projection's rows. -/
theorem c7_projection_never_throws (d : CurrentDate) (rs : List SourceDataType) :
    tableDataE d rs = Except.ok (tableDataTsx d rs) := by
  rw [tableDataE, mapM_mapRowE_ok]
  show Except.ok ((rs.map (mapRowTsx d)).filterMap id) = _
  rw [List.filterMap_map]
  rfl

/-- C8: the projector is deterministic: on the same current date and the same
(unchanged) input record sequence, both pipelines reproduce identical output
row sequences. -/
theorem c8_projection_deterministic (d : CurrentDate) (rs rs' : List SourceDataType)
    (h : rs = rs') :
    tableDataTsx d rs = tableDataTsx d rs' ∧ tableDataRef d rs = tableDataRef d rs' :=
  ⟨congrArg _ h, congrArg _ h⟩

/-- C8 witness: determinism at a concrete date and input. -/
theorem c8_determinism_witness :
    tableDataTsx sampleDate [recEmployeeGood] = tableDataTsx sampleDate [recEmployeeGood]
    ∧ tableDataRef sampleDate [recEmployeeGood] = tableDataRef sampleDate [recEmployeeGood] :=
  c8_projection_deterministic sampleDate [recEmployeeGood] [recEmployeeGood] rfl

/-- C9: the present string `"0"` is truthy and formats through
`toFixed(1)` to `"0.0%"`, while an absent value and the present-but-empty
string `""` both take the falsy default `"0%"`. -/
theorem c9_zero_string_vs_missing :
    parseRate (some "0") = "0.0%" ∧ parseRate none = "0%"
    ∧ parseRate (some "") = "0%" ∧ "0.0%" ≠ "0%" := by
  decide

/-- C3 counterexample: the truthy but unparseable string `"abc"` formats to
`"NaN%"`, not to the claimed default `"0%"` (`parseFloat` yields NaN, which
`toFixed(1)` prints as `"NaN"`). -/
theorem c3_counterexample_unparseable_rate :
    parseRate (some "abc") = "NaN%" ∧ parseRate (some "abc") ≠ "0%" := by
  decide

/-- C3 (amended): a missing or empty utilisation-rate input formats to
`"0%"`; a non-empty input is parsed by `parseFloat`, multiplied by 100 and
rendered by `toFixed(1)` with one digit after the decimal point and `"%"`
appended (`"0.893"` gives exactly `"89.3%"`; the rendered digits are the
half-up rounding of ten times the percentage magnitude, sign-prefixed for
negative values); a non-empty input with no numeric prefix formats to
`"NaN%"`, and an infinite parse to `"Infinity%"`/`"-Infinity%"`. -/
theorem c3_percentage_formatting :
    parseRate none = "0%"
    ∧ parseRate (some "") = "0%"
    ∧ parseRate (some "0.893") = "89.3%"
    ∧ (∀ s : String, s ≠ "" → parseFloatJS s = JSNum.nan → parseRate (some s) = "NaN%")
    ∧ (∀ (s : String) (b : Bool), s ≠ "" → parseFloatJS s = JSNum.inf b →
        parseRate (some s) = (if b then "-Infinity%" else "Infinity%"))
    ∧ (∀ (s : String) (neg : Bool) (m : Nat) (e : Int), s ≠ "" →
        parseFloatJS s = JSNum.num neg m e →
        ∃ n : Nat,
          (n : ℤ) = ⌊(10 : ℚ) * (100 * ((m : ℚ) * (10 : ℚ) ^ e)) + 1 / 2⌋
          ∧ parseRate (some s)
            = (if neg = true ∧ m ≠ 0 then "-" else "")
                ++ toString (n / 10) ++ "." ++ toString (n % 10) ++ "%"
          ∧ (toString (n % 10)).length = 1) := by
  refine ⟨rfl, rfl, by decide, ?_, ?_, ?_⟩
  · intro s hs hp
    rw [parseRate, if_neg hs, hp]
    rfl
  · intro s b hs hp
    rw [parseRate, if_neg hs, hp]
    cases b <;> rfl
  · intro s neg m e hs hp
    obtain ⟨n, hn, hfix⟩ := jsToFixed1_num neg m (e + 2)
    refine ⟨n, ?_, ?_, ?_⟩
    · rw [hn]
      congr 1
      have h3 : (10 : ℚ) ^ (e + 2 + 1) = (10 : ℚ) ^ e * 1000 := by
        rw [show e + 2 + 1 = e + 3 by ring, zpow_add₀ (by norm_num : (10:ℚ) ≠ 0) e 3]
        norm_num
      rw [h3]
      ring
    · rw [parseRate, if_neg hs, hp]
      show jsToFixed1 (JSNum.num neg m (e + 2)) ++ "%" = _
      rw [hfix]
    · have hlt : n % 10 < 10 := Nat.mod_lt _ (by norm_num)
      generalize hk : n % 10 = k at hlt
      interval_cases k <;> rfl

/-- C3 witness: the amended theorem applied at the concrete parseable input
`"0.893"` (which parses to `893 · 10⁻³`). -/
theorem c3_formatting_witness :
    ∃ n : Nat,
      (n : ℤ) = ⌊(10 : ℚ) * (100 * ((((893:Nat)) : ℚ) * (10 : ℚ) ^ ((-3 : Int)))) + 1 / 2⌋
      ∧ parseRate (some "0.893")
        = (if false = true ∧ (893:Nat) ≠ 0 then "-" else "")
            ++ toString (n / 10) ++ "." ++ toString (n % 10) ++ "%"
      ∧ (toString (n % 10)).length = 1 :=
  c3_percentage_formatting.2.2.2.2.2 "0.893" false 893 (-3) (by decide) (by decide)

/-- C4 counterexample: an employee whose previous-month earnings entry is
present but carries the unparseable costs string `"abc"` renders `"NaN €"`,
not the claimed default of 0. -/
theorem c4_counterexample_unparseable_costs :
    getNetEarningsPrevMonth sampleDate recUnparseableCosts = "NaN €"
    ∧ getNetEarningsPrevMonth sampleDate recUnparseableCosts ≠ "0 €" := by
  decide

/-- C4 (amended): `netEarningsPrevMonth` searches the employee's
`potentialEarningsByMonth` for the first entry whose `month` equals the
previous-month key and renders the `parseFloat` of its costs as
`"<number> €"`; it is `"0 €"` for externals (no such field), when no entry
matches, and when the matching entry's `costs` field is absent; a matching
entry with `costs` `"3500"` gives exactly `"3500 €"`; but a matching entry
whose costs string is present and unparseable renders `"NaN €"`, not the 0
default. -/
theorem c4_net_earnings_prev_month (d : CurrentDate) (r : SourceDataType) :
    (r.employees = none → getNetEarningsPrevMonth d r = "0 €")
    ∧ ((earningsList r).find? (fun en => en.month == some (getPrevMonthKey d)) = none →
        getNetEarningsPrevMonth d r = "0 €")
    ∧ (∀ en, (earningsList r).find? (fun en => en.month == some (getPrevMonthKey d)) = some en →
        getNetEarningsPrevMonth d r
          = jsNumToString (parseFloatJS (en.costs.getD "0")) ++ " €")
    ∧ (∀ en, (earningsList r).find? (fun en => en.month == some (getPrevMonthKey d)) = some en →
        en.costs = some "3500" → getNetEarningsPrevMonth d r = "3500 €")
    ∧ (∀ en, (earningsList r).find? (fun en => en.month == some (getPrevMonthKey d)) = some en →
        en.costs = none → getNetEarningsPrevMonth d r = "0 €")
    ∧ (∀ en s, (earningsList r).find? (fun en => en.month == some (getPrevMonthKey d)) = some en →
        en.costs = some s → parseFloatJS s = JSNum.nan →
        getNetEarningsPrevMonth d r = "NaN €") := by
  refine ⟨?_, ?_, ?_, ?_, ?_, ?_⟩
  · intro h
    rcases r with ⟨emp, ext⟩
    cases emp with
    | none => rfl
    | some e => simp at h
  · intro hfind
    simp only [getNetEarningsPrevMonth]
    rw [hfind]
    rfl
  · intro en hfind
    simp only [getNetEarningsPrevMonth]
    rw [hfind]
    rfl
  · intro en hfind hc
    simp only [getNetEarningsPrevMonth]
    rw [hfind]
    show jsNumToString (parseFloatJS (en.costs.getD "0")) ++ " €" = _
    rw [hc]
    rfl
  · intro en hfind hc
    simp only [getNetEarningsPrevMonth]
    rw [hfind]
    show jsNumToString (parseFloatJS (en.costs.getD "0")) ++ " €" = _
    rw [hc]
    rfl
  · intro en s hfind hc hnan
    simp only [getNetEarningsPrevMonth]
    rw [hfind]
    show jsNumToString (parseFloatJS (en.costs.getD "0")) ++ " €" = _
    rw [hc]
    show jsNumToString (parseFloatJS s) ++ " €" = _
    rw [hnan]
    rfl

/-- C4 witness: the §8 scenario employee (matching entry with costs
`"3500"`) renders `"3500 €"`, and an external record renders `"0 €"`. -/
theorem c4_net_earnings_witness :
    getNetEarningsPrevMonth sampleDate recEmployeeGood = "3500 €"
    ∧ getNetEarningsPrevMonth sampleDate recExternalActive = "0 €" :=
  ⟨(c4_net_earnings_prev_month sampleDate recEmployeeGood).2.2.2.1
      ⟨some "2025-09", some "3500"⟩ (by decide) (by decide),
    (c4_net_earnings_prev_month sampleDate recExternalActive).1 rfl⟩

/-- C5: for a current date with a valid zero-based month, the previous-month
key is exactly the spec-side `"YYYY-MM"` rendering (two-digit zero-padded
month) of the calendar month immediately preceding the current one, and in
January it is December of the prior year. -/
theorem c5_prev_month_key (d : CurrentDate) (h : d.month0 < 12) :
    getPrevMonthKey d = specPrevMonthKey d
    ∧ (d.month0 = 0 → getPrevMonthKey d = toString (d.year - 1) ++ "-12") := by
  rcases d with ⟨y, m0⟩
  simp only at h
  constructor
  · have hpad : ∀ k : Nat, k < 12 →
        padStart2 (toString (if k = 0 then 12 else k))
          = if (if k = 0 then 12 else k) < 10
            then "0" ++ toString (if k = 0 then 12 else k)
            else toString (if k = 0 then 12 else k) := by decide
    simp only [getPrevMonthKey, specPrevMonthKey]
    exact congrArg _ (hpad m0 h)
  · intro h0
    simp only at h0
    subst h0
    have h12 : padStart2 (toString (12 : Nat)) = "12" := by decide
    simp only [getPrevMonthKey, reduceIte]
    rw [h12, String.append_assoc]
    exact congrArg (fun s => toString (y - 1) ++ s) (by decide)

/-- C5 witness: at January 2025 the previous-month key is `"2024-12"`,
matching the spec-side rendering. -/
theorem c5_prev_month_witness :
    getPrevMonthKey ⟨2025, 0⟩ = specPrevMonthKey ⟨2025, 0⟩
    ∧ getPrevMonthKey ⟨2025, 0⟩ = toString ((2025 : Int) - 1) ++ "-12" :=
  ⟨(c5_prev_month_key ⟨2025, 0⟩ (by norm_num)).1,
    (c5_prev_month_key ⟨2025, 0⟩ (by norm_num)).2 rfl⟩

/-- C10: an employee record is marked inactive exactly when
`statusAggregation.status` is literally `"Inaktiv"`: the inline pipeline
keeps an employee record iff that status is anything else (including absent),
and the refactored `isValidRow` likewise reduces to that status test plus its
remaining conditions. -/
theorem c10_inaktiv_exact_match (r : SourceDataType) (e : Employees)
    (h : r.employees = some e) :
    ((isInactiveEmployee r = true)
        ↔ (e.statusAggregation.bind fun a => a.status) = some "Inaktiv")
    ∧ ((keepTsx r = true)
        ↔ (e.statusAggregation.bind fun a => a.status) ≠ some "Inaktiv")
    ∧ (e.statusAggregation = none → isInactiveEmployee r = false ∧ keepTsx r = true)
    ∧ (∀ st : String, (e.statusAggregation.bind fun a => a.status) = some st →
        st ≠ "Inaktiv" → isInactiveEmployee r = false ∧ keepTsx r = true)
    ∧ ((isValidRow r = true)
        ↔ ((e.statusAggregation.bind fun a => a.status) ≠ some "Inaktiv"
            ∧ isInactiveExternal r = false ∧ hasValidName (extractPerson r) = true)) := by
  rcases r with ⟨emp, ext⟩
  simp only at h
  subst h
  have hinact : isInactiveEmployee ⟨some e, ext⟩
      = ((e.statusAggregation.bind fun a => a.status) == some "Inaktiv") := by
    simp [isInactiveEmployee]
  have hkeep : keepTsx ⟨some e, ext⟩
      = !((e.statusAggregation.bind fun a => a.status) == some "Inaktiv") := by
    rw [keepTsx]
  refine ⟨?_, ?_, ?_, ?_, ?_⟩
  · rw [hinact]
    exact beq_iff_eq
  · rw [hkeep]
    simp
  · intro hnone
    rw [hinact, hkeep, hnone]
    simp
  · intro st hst hne
    rw [hinact, hkeep, hst]
    simp [hne]
  · rw [isValidRow, hinact]
    constructor
    · intro hv
      have hsplit := (Bool.and_eq_true _ _).mp hv
      have hAB := (Bool.and_eq_true _ _).mp hsplit.1
      refine ⟨?_, by simpa using hAB.2, hsplit.2⟩
      intro hc
      have h1 := hAB.1
      rw [hc] at h1
      simp at h1
    · rintro ⟨h1, h2, h3⟩
      rw [h2, h3]
      have hb : ((e.statusAggregation.bind fun a => a.status) == some "Inaktiv") = false :=
        beq_eq_false_iff_ne.mpr h1
      rw [hb]
      rfl

/-- C10 witness: the `"Aktiv"` employee is not marked inactive and is kept by
the inline pipeline. -/
theorem c10_aktiv_witness :
    keepTsx recEmployeeGood = true ∧ isInactiveEmployee recEmployeeGood = false := by
  obtain ⟨h1, h2, h3, h4, h5⟩ := c10_inaktiv_exact_match recEmployeeGood empJane rfl
  refine ⟨h2.mpr (by decide), ?_⟩
  rcases hb : isInactiveEmployee recEmployeeGood
  · rfl
  · exact absurd (h1.mp hb) (by decide)

end UtilTable
